import Mathlib

/-!
Verification of the image-history catalog of the WWTS repository.

The definitions below are a shallow embedding of the Python sources:

* `src/history_db.py`   — the SQLite-backed catalog (`HistoryDB`);
* `src/history.py`      — the content store (`HistoryManager`);
* `src/settings_window.py` — the reconciliation ("Sort") rename pipeline;
* `src/overlay.py`      — the filesystem-fallback navigation of the overlay.

SQLite tables are modelled as Lean lists kept in rowid order, the wall
clock (`CURRENT_TIMESTAMP`, second granularity) is passed explicitly to
each operation, and the filesystem is modelled as an association list from
path to an opaque content token.  Each definition carries a comment naming
the source lines it embeds.
-/

set_option maxRecDepth 4096

deriving instance DecidableEq for Except

/-! ## Data model (history_db.py, `_init_db`, lines 75-123)

Table `images(id INTEGER PRIMARY KEY AUTOINCREMENT, file_path TEXT UNIQUE,
timestamp DATETIME, is_temporary BOOLEAN, width, height)`. -/

structure ImageRecord where
  id : Nat
  file_path : String
  timestamp : Nat
  is_temporary : Bool
  width : Option Nat
  height : Option Nat
  deriving Repr, DecidableEq

/-- Table `navigation_order(image_id INTEGER PRIMARY KEY, prev_id, next_id)`
(history_db.py lines 94-103).  `image_id` is the rowid. -/
structure NavRow where
  image_id : Nat
  prev_id : Option Nat
  next_id : Option Nat
  deriving Repr, DecidableEq

/-- The whole database file.  `current` is the `image_id` column of the
single `current_position` row (the row itself always exists, see
`_init_db` lines 106-117); `nextId` is the AUTOINCREMENT counter for
`images.id` (the next `lastrowid`). -/
structure DB where
  images : List ImageRecord
  nav : List NavRow
  current : Option Nat
  nextId : Nat
  deriving Repr, DecidableEq

/-- A fresh database right after `_init_db`: empty tables, the
`current_position` row holds NULL, AUTOINCREMENT starts at 1. -/
def initDB : DB := ⟨[], [], none, 1⟩

/-- `SELECT id FROM images WHERE file_path = ?` (first match in rowid
order). -/
def findByPath (db : DB) (p : String) : Option ImageRecord :=
  db.images.find? (fun r => r.file_path = p)

/-- `SELECT * FROM images WHERE id = ?` (the id is the primary key). -/
def findById (db : DB) (i : Nat) : Option ImageRecord :=
  db.images.find? (fun r => r.id = i)

/-- `SELECT image_id, prev_id, next_id FROM navigation_order WHERE
image_id = ?`. -/
def navFind (nav : List NavRow) (i : Nat) : Option NavRow :=
  nav.find? (fun row => row.image_id = i)

/-- `SELECT * FROM images WHERE id != ? ORDER BY timestamp DESC LIMIT 1`
(history_db.py lines 197-202 and 299-304); with `ex = none` it also models
the unrestricted `SELECT id FROM images ORDER BY timestamp DESC LIMIT 1`
of line 360.  SQLite leaves the order of rows with equal timestamps
unspecified; the fold below keeps the first row (lowest rowid) among
ties.  No theorem in this file depends on how a tie is resolved. -/
def mostRecentExcluding (images : List ImageRecord) (ex : Option Nat) :
    Option ImageRecord :=
  images.foldl
    (fun acc r =>
      if some r.id = ex then acc
      else
        match acc with
        | none => some r
        | some b => if b.timestamp < r.timestamp then some r else acc)
    none

/-- `INSERT OR REPLACE INTO navigation_order` keyed on `image_id`: since
`image_id` is the INTEGER PRIMARY KEY (the rowid), replacing rewrites the
row in place and inserting appends it. -/
def navReplace (nav : List NavRow) (row : NavRow) : List NavRow :=
  if nav.any (fun r => r.image_id = row.image_id) then
    nav.map (fun r => if r.image_id = row.image_id then row else r)
  else nav ++ [row]

/-- `HistoryDB._update_navigation_order` (history_db.py lines 187-225):
look up the most recent *by timestamp* other image; if found, rewrite its
row to point `next_id` at the new image (keeping its stored `prev_id`,
line 211 reads it from the table before the replacement) and insert the
new image's row with `prev_id` = that image and `next_id` = NULL;
otherwise insert the new image's row with NULL pointers. -/
def updateNavigationOrder (db : DB) (newImageId : Nat) : DB :=
  match mostRecentExcluding db.images (some newImageId) with
  | some last =>
      let prevOfLast := (navFind db.nav last.id).bind (fun r => r.prev_id)
      let nav1 := navReplace db.nav ⟨last.id, prevOfLast, some newImageId⟩
      let nav2 := navReplace nav1 ⟨newImageId, some last.id, none⟩
      { db with nav := nav2 }
  | none =>
      { db with nav := navReplace db.nav ⟨newImageId, none, none⟩ }

/-- `HistoryDB.set_current_image` (history_db.py lines 227-248):
`UPDATE current_position SET image_id = ? WHERE id = 1`.  The singleton
row always exists, so `cursor.rowcount` is 1 and the call returns True.
The image id is *not* validated against `images` (and the connection does
not enable SQLite foreign-key enforcement), so any id is stored. -/
def set_current_image (db : DB) (imageId : Nat) : DB × Bool :=
  ({ db with current := some imageId }, true)

/-- `HistoryDB.add_image` (history_db.py lines 125-185).  `now` is the
value of `CURRENT_TIMESTAMP` during the call.  An empty path returns
None (lines 138-140).  If the path already has a record its metadata and
timestamp are updated and its id returned (lines 152-162) — navigation is
not touched.  Otherwise the record is inserted with id `lastrowid`,
`_update_navigation_order` runs, and if `current_position` is NULL it is
set to the new id (lines 164-181). -/
def add_image (db : DB) (filePath : String) (now : Nat)
    (isTemporary : Bool) (width height : Option Nat) : DB × Option Nat :=
  if filePath = "" then (db, none)
  else
    match findByPath db filePath with
    | some existing =>
        let images' := db.images.map (fun r =>
          if r.id = existing.id then
            { r with timestamp := now, is_temporary := isTemporary,
                     width := width, height := height }
          else r)
        ({ db with images := images' }, some existing.id)
    | none =>
        let newId := db.nextId
        let rec0 : ImageRecord :=
          ⟨newId, filePath, now, isTemporary, width, height⟩
        let db1 : DB :=
          { db with images := db.images ++ [rec0], nextId := newId + 1 }
        let db2 := updateNavigationOrder db1 newId
        let db3 := if db2.current = none then
            (set_current_image db2 newId).1
          else db2
        (db3, some newId)

/-- The rows produced by the query of `get_current_image` (history_db.py
lines 259-263): `SELECT i.* FROM images i JOIN current_position cp ON
i.id = cp.image_id WHERE cp.id = 1` — at most one row since
`current_position` is a singleton and `images.id` is a key. -/
def currentQueryRows (db : DB) : List ImageRecord :=
  match db.current.bind (findById db) with
  | some r => [r]
  | none => []

/-- `HistoryDB.get_current_image` (history_db.py lines 250-266).  Line 264
is `return dict(cursor.fetchone()) if cursor.fetchone() else None`: the
condition consumes the only row of the cursor, so the value position
fetches the *next* row, which is None; `dict(None)` raises TypeError,
which line 265 catches, returning None. -/
def get_current_image (db : DB) : Option ImageRecord :=
  let rows := currentQueryRows db
  match rows.head? with
  | none => none
  | some _ =>
      match (rows.drop 1).head? with
      | some r => some r
      | none => none

inductive NavDirection where
  | next
  | prev
  deriving Repr, DecidableEq

/-- `HistoryDB.get_adjacent_image` (history_db.py lines 268-311).  The
first query joins `images` on `navigation_order.next_id` (or `prev_id`)
for the row with `image_id = current_id`; it yields a row only when that
row exists, the pointer is non-NULL, and the pointed-at image exists.
When it yields nothing the code falls back to the globally most recent
image by timestamp, excluding `current_id` (lines 298-307). -/
def get_adjacent_image (db : DB) (currentId : Nat) (dir : NavDirection) :
    Option ImageRecord :=
  let linked : Option ImageRecord :=
    (navFind db.nav currentId).bind (fun row =>
      (match dir with
       | NavDirection.next => row.next_id
       | NavDirection.prev => row.prev_id).bind (findById db))
  match linked with
  | some r => some r
  | none => mostRecentExcluding db.images (some currentId)

/-- The ids `to_remove` collected by `cleanup_missing_files` (history_db.py
lines 339-344): ids of records whose `file_path` does not exist on disk. -/
def removedIds (db : DB) (onDisk : String → Bool) : List Nat :=
  (db.images.filter (fun r => !(onDisk r.file_path))).map (fun r => r.id)

/-- `HistoryDB.cleanup_missing_files` (history_db.py lines 328-369):
delete the `navigation_order` and `images` rows of every record whose
path is missing on disk (lines 346-354 — surviving rows are *not*
rewritten), then run `UPDATE current_position SET image_id = (SELECT id
FROM images ORDER BY timestamp DESC LIMIT 1) WHERE id = 1 AND image_id IS
NULL` (lines 357-362) — note the `image_id IS NULL` guard: the update
fires only when the current position was already NULL.  Returns the
number of removed records. -/
def cleanup_missing_files (db : DB) (onDisk : String → Bool) : DB × Nat :=
  let toRemove := removedIds db onDisk
  let images' := db.images.filter (fun r => !(toRemove.contains r.id))
  let nav' := db.nav.filter (fun row => !(toRemove.contains row.image_id))
  let db1 : DB := { db with images := images', nav := nav' }
  let db2 :=
    if toRemove.isEmpty then db1
    else if db1.current = none then
      let newCur := (mostRecentExcluding db1.images none).map (fun r => r.id)
      { db1 with current := newCur }
    else db1
  (db2, toRemove.length)

/-! ## The single-path property claimed for the navigation order -/

/-- One step along `next_id` pointers. -/
def stepNext (nav : List NavRow) (i : Nat) : Option Nat :=
  (navFind nav i).bind (fun row => row.next_id)

/-- `k` steps along `next_id` pointers (None as soon as a step is
undefined). -/
def iterNext (nav : List NavRow) : Nat → Nat → Option Nat
  | 0, i => some i
  | k + 1, i => (stepNext nav i).bind (iterNext nav k)

/-- No node is named as `next_id` by two distinct rows. -/
def NoDupNext (nav : List NavRow) : Prop :=
  ∀ a ∈ nav, ∀ b ∈ nav, a.next_id ≠ none → a.next_id = b.next_id → a = b

/-- No node is named as `prev_id` by two distinct rows. -/
def NoDupPrev (nav : List NavRow) : Prop :=
  ∀ a ∈ nav, ∀ b ∈ nav, a.prev_id ≠ none → a.prev_id = b.prev_id → a = b

/-- No node reaches itself again by following `next_id` pointers. -/
def Acyclic (nav : List NavRow) : Prop :=
  ∀ r ∈ nav, ∀ k < nav.length, iterNext nav (k + 1) r.image_id ≠ some r.image_id

/-- The claim's single-simple-path shape: no cycle and no branching. -/
def SimplePath (nav : List NavRow) : Prop :=
  NoDupNext nav ∧ NoDupPrev nav ∧ Acyclic nav

instance : DecidablePred SimplePath := fun nav => by
  unfold SimplePath NoDupNext NoDupPrev Acyclic
  infer_instance

/-! ## Concrete scenarios built only from the embedded operations -/

/-- State after `add_image("A", …)` at time 0 on a fresh database. -/
def scenarioA : DB := (add_image initDB "A" 0 false none none).1

/-- … then `add_image("B", …)` at time 1. -/
def scenarioAB : DB := (add_image scenarioA "B" 1 false none none).1

/-- … then `add_image("C", …)` at time 2: the A→B→C chain of the spec's
navigation scenario. -/
def scenarioABC : DB := (add_image scenarioAB "C" 2 false none none).1

/-- … then re-`add_image("A")` at time 3 (updates A's timestamp only) and
`add_image("D")` at time 4. -/
def scenarioReaddThenD : DB :=
  (add_image (add_image scenarioABC "A" 3 false none none).1
    "D" 4 false none none).1

/-- `cleanup_missing_files` on the A→B→C state after `B` disappeared from
disk. -/
def scenarioCleanupB : DB × Nat :=
  cleanup_missing_files scenarioABC (fun p => p != "B")

/-! ## Expected shape of the tables under disciplined `add_image` use
(proof infrastructure for the single-path invariant) -/

/-- Iterated `add_image` with per-call path and timestamp functions
(`is_temporary = false`, unknown dimensions, as in the spec's
scenarios). -/
def iterAdd (path : Nat → String) (ts : Nat → Nat) : Nat → DB
  | 0 => initDB
  | n + 1 => (add_image (iterAdd path ts n) (path n) (ts n) false
      none none).1

/-- The images table expected after `n` fresh adds: ids 1..n in
insertion order. -/
def goodImages (path : Nat → String) (ts : Nat → Nat) (n : Nat) :
    List ImageRecord :=
  (List.range n).map (fun k => ⟨k + 1, path k, ts k, false, none, none⟩)

/-- Row `k` (0-based) of the expected navigation chain over ids 1..n. -/
def chainRow (n k : Nat) : NavRow :=
  ⟨k + 1, if k = 0 then none else some k,
    if k + 1 = n then none else some (k + 2)⟩

/-- The expected navigation chain 1 → 2 → … → n. -/
def chainNav (n : Nat) : List NavRow := (List.range n).map (chainRow n)

/-! ## Shared filesystem model

A directory's contents as an association list from path to an opaque
content token (first binding wins, as paths are unique on a real
filesystem). -/

abbrev FS := List (String × Nat)

def fsGet : FS → String → Option Nat
  | [], _ => none
  | (n, c) :: rest, p => if n = p then some c else fsGet rest p

def fsExists (fs : FS) (p : String) : Bool := (fsGet fs p).isSome

/-- `os.remove` / the implicit disappearance of a moved source. -/
def fsRemove : FS → String → FS
  | [], _ => []
  | e :: rest, p => if e.1 = p then fsRemove rest p else e :: fsRemove rest p

/-- `shutil.move`/`os.rename` of a file: the destination (if any) is
replaced by the source's content and the source name disappears.  A
missing source leaves the filesystem unchanged (the caller's exception
handler decides what happens next). -/
def fsMove (fs : FS) (src dst : String) : FS :=
  match fsGet fs src with
  | none => fs
  | some c => fsRemove (fsRemove fs src) dst ++ [(dst, c)]

/-! ## Strings, digits and filename parsing (shared by history.py and
settings_window.py models) -/

/-- ASCII lowercasing (`str.lower`), written over the character list so
that the kernel can evaluate it on literals. -/
def toLowerChar (c : Char) : Char :=
  if 65 ≤ c.toNat ∧ c.toNat ≤ 90 then Char.ofNat (c.toNat + 32) else c

def lowerStr (s : String) : String := String.mk (s.data.map toLowerChar)

/-- The character of decimal digit `d` (for `d < 10`). -/
def digitChar (d : Nat) : Char := Char.ofNat (48 + d)

/-- Python `f"{c:04d}"` for `c ≤ 9999`. -/
def pad4 (c : Nat) : String :=
  String.mk [digitChar (c / 1000 % 10), digitChar (c / 100 % 10),
    digitChar (c / 10 % 10), digitChar (c % 10)]

def charDigit? (c : Char) : Option Nat :=
  if 48 ≤ c.toNat ∧ c.toNat ≤ 57 then some (c.toNat - 48) else none

def parseDigitsAux (acc : Nat) : List Char → Option Nat
  | [] => some acc
  | c :: cs =>
      match charDigit? c with
      | some d => parseDigitsAux (acc * 10 + d) cs
      | none => none

/-- Python `int(s)` restricted to the plain unsigned decimal form, which
is the only form the generated and claimed-about filenames take (a
ValueError — here `none` — is what the callers catch and skip). -/
def parsePyNat (s : List Char) : Option Nat :=
  match s with
  | [] => none
  | _ => parseDigitsAux 0 s

/-- Characters of the stem of a filename that contains a dot: everything
before the last dot (`os.path.splitext` / `Path.stem`). -/
def stemChars (name : List Char) : List Char :=
  match name.reverse.dropWhile (fun c => ¬ c = '.') with
  | [] => name
  | _ :: rest => rest.reverse

/-- `os.path.splitext(name)[0]` — the whole name when it has no dot. -/
def splitExtStem (name : String) : String :=
  if name.data.contains '.' then String.mk (stemChars name.data) else name

/-- `os.path.splitext(name)[1]` without the leading dot. -/
def splitExtExt (name : String) : String :=
  if name.data.contains '.' then
    String.mk ((name.data.reverse.takeWhile (fun c => ¬ c = '.')).reverse)
  else ""

/-- Does the stem end in `"_T"`? -/
def endsTU (l : List Char) : Bool :=
  match l.reverse with
  | c1 :: c2 :: _ => c1 == 'T' && c2 == '_'
  | _ => false

/-- `base[:-2]` when `base.endswith('_T')`, else `base`. -/
def stripTempSuffix (l : List Char) : List Char :=
  if endsTU l then (l.reverse.drop 2).reverse else l

/-- `file_type.lower().strip('.')` (history.py lines 84 and 108). -/
def normalizeExt (s : String) : String :=
  String.mk
    ((((lowerStr s).data.dropWhile (fun c => c = '.')).reverse.dropWhile
      (fun c => c = '.')).reverse)

/-! ## Content store (history.py, `HistoryManager`) -/

/-- Counter parsed from one directory entry by `_generate_filename`
(history.py lines 57-68): the glob `'*.*'` keeps names containing a dot;
take `file.stem`, drop a trailing `"_T"`, then `int(...)`; parse failures
are skipped. -/
def parseUsedCounter (name : String) : Option Nat :=
  if name.data.contains '.' then
    parsePyNat (stripTempSuffix (stemChars name.data))
  else none

/-- The `used_counters` set of `_generate_filename` over the directory
listing. -/
def usedCounters (files : List String) : List Nat :=
  files.filterMap parseUsedCounter

/-- The while loop of `_generate_filename` (history.py lines 71-77):
increment while the counter is taken, raising RuntimeError once the
counter would pass 9999.  The structural fuel `10001 - counter` strictly
bounds the iteration count from any start; `_generate_filename` always
starts at 0, so the fuel-exhausted base case is unreachable (and made to
agree with the raise). -/
def findFreeCounterGo (used : List Nat) : Nat → Nat → Except String Nat
  | 0, _ =>
      Except.error "Maximum number of files (9999) reached in the directory"
  | fuel + 1, counter =>
      if counter ∈ used then
        if counter + 1 > 9999 then
          Except.error
            "Maximum number of files (9999) reached in the directory"
        else findFreeCounterGo used fuel (counter + 1)
      else Except.ok counter

def findFreeCounter (used : List Nat) (counter : Nat) : Except String Nat :=
  findFreeCounterGo used (10001 - counter) counter

/-- `HistoryManager._generate_filename` (history.py lines 43-84) over the
listing of the current year/month directory: lowest free 4-digit counter,
formatted `"{counter:04d}[_T].{ext}"` with the normalized extension. -/
def generateFilename (files : List String) (fileType : String)
    (isTemporary : Bool) : Except String String :=
  match findFreeCounter (usedCounters files) 0 with
  | Except.error e => Except.error e
  | Except.ok c =>
      let base := pad4 c
      let base := if isTemporary then base ++ "_T" else base
      Except.ok (base ++ "." ++ normalizeExt fileType)

/-- `HistoryManager.save_image` (history.py lines 90-205), reduced to the
filename/write logic of the claims: validation passes, `fs` is the
current year/month directory (path → content token), and a successful
`image.save` materializes the file.  The RuntimeError coming out of
`_generate_filename` is swallowed by the enclosing handlers (lines
199-205), which return None with no file created or modified.  No
fingerprint is consulted anywhere on this path: `_get_image_crc`
(lines 86-88) has no caller in the repository. -/
def save_image (fs : FS) (contents : Nat) (fileType : String)
    (isTemporary : Bool) : FS × Option String :=
  match generateFilename (fs.map Prod.fst) fileType isTemporary with
  | Except.error _ => (fs, none)
  | Except.ok name => (fs ++ [(name, contents)], some name)

/-! ## Reconciliation ("Sort") pipeline (settings_window.py) -/

/-- One element of `_get_sorted_files`'s result tuples
`(dir_path, counter, None, ext, is_temporary, full_path)`. -/
structure FileEntry where
  dir : String
  counter : Nat
  ext : String
  is_temporary : Bool
  old_path : String
  deriving Repr, DecidableEq

/-- `os.path.join` for the forward-slash form used throughout the
model. -/
def joinPath (dir name : String) : String := dir ++ "/" ++ name

/-- `os.path.normpath`: the model's paths are already canonical. -/
def normPath (p : String) : String := p

/-- Stable insertion preserving walk order among equal counters
(Python `list.sort` is stable). -/
def insertByCounter (e : FileEntry) : List FileEntry → List FileEntry
  | [] => [e]
  | x :: xs =>
      if e.counter ≤ x.counter then e :: x :: xs
      else x :: insertByCounter e xs

def sortByCounter : List FileEntry → List FileEntry
  | [] => []
  | x :: xs => insertByCounter x (sortByCounter xs)

/-- `SettingsWindow._get_sorted_files` (settings_window.py lines
959-1009) for a single directory `dir` whose walk listing is
`filenames` (the claims' scenarios live in one directory and its name
contains no `wwts_sort_`).  `total_files` counts every listed file,
matched or not, exactly as the source does for the synthetic
`9999 + total_files` counters of non-numeric stems. -/
def getSortedFiles (dir : String) (filenames : List String) :
    List FileEntry :=
  let entries := (filenames.foldl
    (fun (st : Nat × List FileEntry) filename =>
      let total := st.1 + 1
      let base := (splitExtStem filename).data
      let ext := lowerStr (splitExtExt filename)
      if ext ∈ ["png", "jpg", "jpeg", "gif", "bmp"] then
        let isTemp := endsTU base
        let base := stripTempSuffix base
        let counter :=
          match parsePyNat base with
          | some c => c
          | none => 9999 + total
        (total, st.2 ++
          [⟨dir, counter, ext, isTemp, joinPath dir filename⟩])
      else (total, st.2))
    (0, [])).2
  sortByCounter entries

/-- The collision-probing loop of lines 1080-1088 of
settings_window.py: from `idx + 1` upward, the first counter whose
formatted path neither exists on disk nor is among the assigned targets;
`none` is the RuntimeError raised past 9999 (the fuel `10001` dominates
the loop's iteration count). -/
def probeCounter (fs : FS) (seen : List String) (dir ext : String) :
    Nat → Nat → Option String
  | 0, _ => none
  | fuel + 1, counter =>
      let newPath := joinPath dir (pad4 counter ++ "." ++ ext)
      if ¬ fsExists fs newPath ∧ ¬ lowerStr newPath ∈ seen then some newPath
      else if counter + 1 > 9999 then none
      else probeCounter fs seen dir ext fuel (counter + 1)

/-- First pass of `_rename_files_with_sequential_numbers`
(settings_window.py lines 1060-1091): target `"{idx:04d}.{ext}"` per
enumerate index (temporary entries are skipped but still consume an
index), files already in place are skipped (their target is reserved),
duplicate targets probe upward; `none` models the RuntimeError abort.
`seen` holds lowercased reserved targets, `mapping` the ordered
`path_mapping` items. -/
def genPlanGo (fs : FS) : List FileEntry → Nat → List String →
    List (String × String) → Option (List (String × String))
  | [], _, _, mapping => some mapping
  | entry :: rest, idx, seen, mapping =>
      if entry.is_temporary then genPlanGo fs rest (idx + 1) seen mapping
      else
        let newPath := joinPath entry.dir (pad4 idx ++ "." ++ entry.ext)
        if normPath entry.old_path = normPath newPath then
          genPlanGo fs rest (idx + 1) (seen ++ [lowerStr newPath]) mapping
        else if lowerStr newPath ∈ seen then
          match probeCounter fs seen entry.dir entry.ext 10001 (idx + 1) with
          | none => none
          | some np =>
              genPlanGo fs rest (idx + 1) (seen ++ [lowerStr np])
                (mapping ++ [(entry.old_path, np)])
        else
          genPlanGo fs rest (idx + 1) (seen ++ [lowerStr newPath])
            (mapping ++ [(entry.old_path, newPath)])

def genPlan (fs : FS) (files : List FileEntry) :
    Option (List (String × String)) :=
  genPlanGo fs files 0 [] []

/-- The temporary sibling name of lines 1102-1107: `new + ".tmp"`, then
`new + "." + counter + ".tmp"` until unused (fuel bounds the finite
directory, the fallback being unreachable). -/
def findTempNameGo (fs : FS) (newPath : String) : Nat → Nat → String
  | 0, counter => newPath ++ "." ++ toString counter ++ ".tmp"
  | fuel + 1, counter =>
      let temp := newPath ++ "." ++ toString counter ++ ".tmp"
      if fsExists fs temp then findTempNameGo fs newPath fuel (counter + 1)
      else temp

def findTempName (fs : FS) (newPath : String) : String :=
  let temp0 := newPath ++ ".tmp"
  if fsExists fs temp0 then findTempNameGo fs newPath (fs.length + 1) 1
  else temp0

/-- One iteration of the second pass (settings_window.py lines
1094-1140).  Occupied differing destination: move the occupant to a
temporary sibling, move the source into place, then `os.remove` the
temporary sibling (lines 1109-1121) — restoring the occupant only if the
source move failed (lines 1123-1128).  Unoccupied destination: plain
move.  The returned flag is membership in `renamed_files`. -/
def applyRename (fs : FS) (oldPath newPath : String) : FS × Bool :=
  if fsExists fs newPath ∧ ¬ normPath oldPath = normPath newPath then
    if lowerStr oldPath = lowerStr newPath then (fs, false)
    else
      let temp := findTempName fs newPath
      let fs1 := fsMove fs newPath temp
      match fsGet fs1 oldPath with
      | none =>
          (if fsExists fs1 temp then fsMove fs1 temp newPath else fs1,
            false)
      | some _ =>
          let fs2 := fsMove fs1 oldPath newPath
          (fsRemove fs2 temp, true)
  else
    match fsGet fs oldPath with
    | none => (fs, false)
    | some _ => (fsMove fs oldPath newPath, true)

/-- The second pass over the whole `path_mapping`, collecting
`renamed_files`. -/
def applyPlan (fs : FS) : List (String × String) →
    FS × List (String × String)
  | [] => (fs, [])
  | (o, n) :: rest =>
      let r := applyRename fs o n
      let rr := applyPlan r.1 rest
      (rr.1, (if r.2 then [(o, n)] else []) ++ rr.2)

/-- The filesystem phase of `sort_history_files` (settings_window.py
lines 1143-1235): list and sort the directory, build the rename plan,
apply it; `none` is the RuntimeError abort path. -/
def reconcile (fs : FS) (dir : String) (walk : List String) :
    Option (FS × List (String × String)) :=
  match genPlan fs (getSortedFiles dir walk) with
  | none => none
  | some plan => some (applyPlan fs plan)

/-! ## Filesystem-fallback navigation (overlay.py, `navigate_history`) -/

/-- The index arithmetic of overlay.py lines 1552-1563.  Python's
`max(0, current_idx - 1)` is Nat truncated subtraction. -/
def navigateHistoryIndex (dir : NavDirection) (cur len : Nat) : Nat :=
  let ni :=
    match dir with
    | NavDirection.prev => cur - 1
    | NavDirection.next => min (len - 1) (cur + 1)
  if ni = cur then
    match dir with
    | NavDirection.next => 0
    | NavDirection.prev => len - 1
  else ni

/-- Which image `navigate_history` displays (overlay.py lines
1516-1563), given the sorted listing of image names and the current
file's name: empty listing → nothing; no current, or current not found
in the listing → the first image; otherwise the index step with
wrap-around at the boundaries. -/
def navigateHistoryPick (images : List String) (current : Option String)
    (dir : NavDirection) : Option String :=
  if images.isEmpty then none
  else
    match current with
    | none => images.head?
    | some cn =>
        match images.findIdx? (fun p => p = cn) with
        | none => images.head?
        | some i => images.get? (navigateHistoryIndex dir i images.length)

/-! ## C1 — validity of the current-position pointer -/

/-- C1: the claimed invariant "CurrentPosition is never a dangling id"
fails in the code, in both ways named by the claim.
`set_current_image` stores an id with no `images` row and still reports
success (the UPDATE touches the singleton row, `rowcount` is 1), and
`cleanup_missing_files` that removes the record pointed at by
`current_position` leaves the pointer at the removed id: the re-pointing
UPDATE of lines 358-362 is guarded by `image_id IS NULL` even though its
own comment says "Update current position if it points to a removed
image", so it never fires when the pointer is dangling — despite a
surviving record (id 1) being available to re-point at. -/
theorem c1_current_position_dangles :
    ((set_current_image initDB 99).1.current = some 99 ∧
     (set_current_image initDB 99).2 = true ∧
     findById (set_current_image initDB 99).1 99 = none) ∧
    ((cleanup_missing_files (set_current_image scenarioAB 2).1
        (fun p => p != "B")).1.current = some 2 ∧
     findById (cleanup_missing_files (set_current_image scenarioAB 2).1
        (fun p => p != "B")).1 2 = none ∧
     (cleanup_missing_files (set_current_image scenarioAB 2).1
        (fun p => p != "B")).2 = 1 ∧
     (mostRecentExcluding (cleanup_missing_files
        (set_current_image scenarioAB 2).1 (fun p => p != "B")).1.images
        none).map (fun r => r.id) = some 1) := by
  decide

/-! ## C3 — `get_current_image` -/

/-- C3: `get_current_image` never returns a record: the double
`cursor.fetchone()` on line 264 consumes the single row in the truthiness
test, and `dict` of the second (empty) fetch raises TypeError, caught on
line 265.  So even in a state where `current_position` holds id 1 and the
record with id 1 exists, the function returns None, contradicting both
the claim and the function's own docstring. -/
theorem c3_get_current_image_always_none :
    (∀ db : DB, get_current_image db = none) ∧
    scenarioABC.current = some 1 ∧
    findById scenarioABC 1 = some ⟨1, "A", 0, false, none, none⟩ := by
  refine ⟨fun db => ?_, by decide, by decide⟩
  unfold get_current_image currentQueryRows
  rcases db.current.bind (findById db) with _ | r <;> rfl

/-! ## C2 — the single-path invariant (counterexample half) -/

/-- C2 counterexample: after `add_image` of A, B, C (times 0, 1, 2), a
re-add of A (time 3, which only refreshes A's timestamp) and a fresh
`add_image` of D (time 4), `_update_navigation_order` picks A — the most
recent image *by timestamp* — as the link predecessor of D, while B still
names A as its `prev_id`.  The resulting `navigation_order` is branched
(two rows point back at node 1), so the claimed invariant fails for this
`add_image` sequence. -/
theorem c2_counterexample : ¬ SimplePath scenarioReaddThenD.nav := by
  decide

/-! ## C4 — `get_adjacent_image` at the head of the path -/

/-- C4 counterexample: in the A→B→C state the `navigation_order` row for
A (id 1) exists with a NULL `prev_id`, yet `get_adjacent_image(1, prev)`
does not return None — the join yields no row, so the code takes the
timestamp fallback of lines 298-307. -/
theorem c4_counterexample :
    navFind scenarioABC.nav 1 = some ⟨1, none, some 2⟩ ∧
    get_adjacent_image scenarioABC 1 NavDirection.prev ≠ none := by
  decide

/-- C4 amended: the fallback is used whenever the navigation join yields
no image — not only when the `navigation_order` row is absent, but also
when the row exists and its pointer in the requested direction is NULL.
In the A→B→C scenario, `get_adjacent(3, prev)` and `get_adjacent(2,
prev)` follow the links to B and A, but `get_adjacent(1, prev)` at the
head returns the globally most recent other record C (not None). -/
theorem c4_amended_fallback_at_head :
    get_adjacent_image scenarioABC 3 NavDirection.prev =
      some ⟨2, "B", 1, false, none, none⟩ ∧
    get_adjacent_image scenarioABC 2 NavDirection.prev =
      some ⟨1, "A", 0, false, none, none⟩ ∧
    navFind scenarioABC.nav 1 = some ⟨1, none, some 2⟩ ∧
    get_adjacent_image scenarioABC 1 NavDirection.prev =
      some ⟨3, "C", 2, false, none, none⟩ := by
  decide

/-! ## C6 — `cleanup_missing_files` does not relink neighbours -/

/-- C6 counterexample: removing B from the linked order A↔B↔C does *not*
leave A and C linked directly: A's surviving row still has `next_id = 2`
(the deleted id) and C's still has `prev_id = 2`; the code only deletes
rows (lines 350-351), it never rewrites the neighbours' pointers. -/
theorem c6_counterexample :
    ¬ (((navFind scenarioCleanupB.1.nav 1).bind (fun r => r.next_id) =
          some 3) ∧
       ((navFind scenarioCleanupB.1.nav 3).bind (fun r => r.prev_id) =
          some 1)) := by
  decide

/-- The images table after cleanup, in every branch of the
current-position update. -/
theorem cleanup_images_eq (db : DB) (onDisk : String → Bool) :
    (cleanup_missing_files db onDisk).1.images =
      db.images.filter (fun r => !((removedIds db onDisk).contains r.id)) := by
  unfold cleanup_missing_files
  dsimp only
  split
  · rfl
  · split <;> rfl

/-- The navigation table after cleanup, in every branch. -/
theorem cleanup_nav_eq (db : DB) (onDisk : String → Bool) :
    (cleanup_missing_files db onDisk).1.nav =
      db.nav.filter
        (fun row => !((removedIds db onDisk).contains row.image_id)) := by
  unfold cleanup_missing_files
  dsimp only
  split
  · rfl
  · split <;> rfl

/-- C6 amended: `cleanup_missing_files` removes exactly the records whose
path is missing on disk, returns their count, and deletes their
navigation rows — but it performs no relinking: every surviving
`navigation_order` row is a verbatim row of the old table (so pointers at
removed neighbours are left dangling rather than re-routed, as
`c6_counterexample` shows on the A↔B↔C scenario). -/
theorem c6_amended_cleanup_deletes_without_relinking
    (db : DB) (onDisk : String → Bool) :
    (cleanup_missing_files db onDisk).2 =
      (db.images.filter (fun r => !(onDisk r.file_path))).length ∧
    (∀ r ∈ (cleanup_missing_files db onDisk).1.images,
      onDisk r.file_path = true) ∧
    (∀ r ∈ db.images, r.id ∉ removedIds db onDisk →
      r ∈ (cleanup_missing_files db onDisk).1.images) ∧
    (∀ row ∈ (cleanup_missing_files db onDisk).1.nav, row ∈ db.nav) ∧
    (∀ row ∈ db.nav, row.image_id ∉ removedIds db onDisk →
      row ∈ (cleanup_missing_files db onDisk).1.nav) := by
  refine ⟨?_, ?_, ?_, ?_, ?_⟩
  · show (removedIds db onDisk).length = _
    simp [removedIds]
  · intro r hr
    rw [cleanup_images_eq] at hr
    rcases List.mem_filter.mp hr with ⟨hmem, hkeep⟩
    by_contra hnotdisk
    have hdisk : onDisk r.file_path = false := by
      cases h : onDisk r.file_path
      · rfl
      · exact absurd h hnotdisk
    have hin : r.id ∈ removedIds db onDisk := by
      refine List.mem_map.mpr ⟨r, ?_, rfl⟩
      exact List.mem_filter.mpr ⟨hmem, by simp [hdisk]⟩
    have : (removedIds db onDisk).contains r.id = true :=
      List.elem_iff.mpr hin
    simp [this] at hkeep
    exact hkeep hin
  · intro r hr hnot
    rw [cleanup_images_eq]
    refine List.mem_filter.mpr ⟨hr, ?_⟩
    have : (removedIds db onDisk).contains r.id = false := by
      cases h : (removedIds db onDisk).contains r.id
      · rfl
      · exact absurd (List.elem_iff.mp h) hnot
    simp [this]
    exact hnot
  · intro row hrow
    rw [cleanup_nav_eq] at hrow
    exact (List.mem_filter.mp hrow).1
  · intro row hrow hnot
    rw [cleanup_nav_eq]
    refine List.mem_filter.mpr ⟨hrow, ?_⟩
    have : (removedIds db onDisk).contains row.image_id = false := by
      cases h : (removedIds db onDisk).contains row.image_id
      · rfl
      · exact absurd (List.elem_iff.mp h) hnot
    simp [this]
    exact hnot

/-- Witness for `c6_amended_cleanup_deletes_without_relinking` on the
A↔B↔C scenario with `B` missing from disk. -/
theorem c6_amended_witness :
    scenarioCleanupB.2 = 1 ∧
    (⟨1, "A", 0, false, none, none⟩ : ImageRecord) ∈
      scenarioCleanupB.1.images ∧
    (⟨1, none, some 2⟩ : NavRow) ∈ scenarioCleanupB.1.nav := by
  have h := c6_amended_cleanup_deletes_without_relinking scenarioABC
    (fun p => p != "B")
  refine ⟨?_, ?_, ?_⟩
  · exact h.1.trans (by decide)
  · exact h.2.2.1 ⟨1, "A", 0, false, none, none⟩ (by decide) (by decide)
  · exact h.2.2.2.2 ⟨1, none, some 2⟩ (by decide) (by decide)

/-! ## C5 — idempotence of `add_image` -/

/-- `_update_navigation_order` touches only the `navigation_order`
table. -/
theorem updateNavigationOrder_images (db : DB) (n : Nat) :
    (updateNavigationOrder db n).images = db.images := by
  unfold updateNavigationOrder
  cases mostRecentExcluding db.images (some n) <;> rfl

theorem updateNavigationOrder_nextId (db : DB) (n : Nat) :
    (updateNavigationOrder db n).nextId = db.nextId := by
  unfold updateNavigationOrder
  cases mostRecentExcluding db.images (some n) <;> rfl

theorem updateNavigationOrder_current (db : DB) (n : Nat) :
    (updateNavigationOrder db n).current = db.current := by
  unfold updateNavigationOrder
  cases mostRecentExcluding db.images (some n) <;> rfl

/-- A result of the most-recent query is a member of the table and is
never the excluded id. -/
theorem mostRecentExcluding_mem {l : List ImageRecord} {ex : Option Nat}
    {b : ImageRecord} (h : mostRecentExcluding l ex = some b) :
    b ∈ l ∧ some b.id ≠ ex := by
  suffices H : ∀ (acc : Option ImageRecord),
      l.foldl
        (fun acc r =>
          if some r.id = ex then acc
          else
            match acc with
            | none => some r
            | some c => if c.timestamp < r.timestamp then some r else acc)
        acc = some b →
      acc = some b ∨ (b ∈ l ∧ some b.id ≠ ex) by
    rcases H none h with h' | h'
    · exact absurd h' (by simp)
    · exact h'
  clear h
  induction l with
  | nil => intro acc h; exact Or.inl h
  | cons r l ih =>
      intro acc h
      rw [List.foldl_cons] at h
      rcases ih _ h with h' | h'
      · by_cases hex : some r.id = ex
        · rw [if_pos hex] at h'
          exact Or.inl h'
        · rw [if_neg hex] at h'
          cases acc with
          | none =>
              dsimp only at h'
              cases h'
              exact Or.inr ⟨List.mem_cons_self _ _, hex⟩
          | some c =>
              dsimp only at h'
              by_cases ht : c.timestamp < r.timestamp
              · rw [if_pos ht] at h'
                cases h'
                exact Or.inr ⟨List.mem_cons_self _ _, hex⟩
              · rw [if_neg ht] at h'
                exact Or.inl h'
      · exact Or.inr ⟨List.mem_cons_of_mem r h'.1, h'.2⟩

/-- Evaluation of `add_image` in the fresh-path branch (lines 164-181 of
history_db.py). -/
theorem add_image_fresh_eq (db : DB) (p : String) (now : Nat) (b : Bool)
    (w d : Option Nat) (hp : ¬ p = "") (hf : findByPath db p = none) :
    add_image db p now b w d =
      (let db1 : DB :=
        ⟨db.images ++ [⟨db.nextId, p, now, b, w, d⟩], db.nav, db.current,
          db.nextId + 1⟩
       let db2 := updateNavigationOrder db1 db.nextId
       if db2.current = none then
         ({ db2 with current := some db.nextId }, some db.nextId)
       else (db2, some db.nextId)) := by
  unfold add_image
  rw [if_neg hp, hf]
  dsimp only [set_current_image]
  split <;> rfl

/-- Evaluation of `add_image` in the existing-path branch (lines 152-162
of history_db.py). -/
theorem add_image_existing_eq (db : DB) (p : String) (now : Nat) (b : Bool)
    (w d : Option Nat) (ex : ImageRecord) (hp : ¬ p = "")
    (hf : findByPath db p = some ex) :
    add_image db p now b w d =
      ({ db with images := db.images.map (fun r =>
          if r.id = ex.id then
            { r with timestamp := now, is_temporary := b,
                     width := w, height := d }
          else r) }, some ex.id) := by
  unfold add_image
  rw [if_neg hp, hf]

/-- Every row of `navReplace nav row` is an old row or the new row. -/
theorem navReplace_forall {P : NavRow → Prop} {nav : List NavRow}
    {row : NavRow} (hnav : ∀ r ∈ nav, P r) (hrow : P row) :
    ∀ r ∈ navReplace nav row, P r := by
  intro r hr
  unfold navReplace at hr
  split at hr
  · rcases List.mem_map.mp hr with ⟨a, ha, rfl⟩
    split
    · exact hrow
    · exact hnav a ha
  · rcases List.mem_append.mp hr with h | h
    · exact hnav r h
    · rcases List.mem_singleton.mp h with rfl
      exact hrow

/-- When no existing row carries the new row's key, `navReplace`
appends. -/
theorem navReplace_append {nav : List NavRow} {row : NavRow}
    (h : ∀ r ∈ nav, r.image_id ≠ row.image_id) :
    navReplace nav row = nav ++ [row] := by
  unfold navReplace
  rw [if_neg]
  simp only [List.any_eq_true, decide_eq_true_eq, not_exists, not_and]
  intro r hr
  exact h r hr

/-- The fields of `add_image`'s fresh-branch result other than the
navigation table. -/
theorem add_image_fresh_images (db : DB) (p : String) (now : Nat)
    (b : Bool) (w d : Option Nat) (hp : ¬ p = "")
    (hf : findByPath db p = none) :
    (add_image db p now b w d).1.images =
      db.images ++ [⟨db.nextId, p, now, b, w, d⟩] := by
  rw [add_image_fresh_eq db p now b w d hp hf]
  dsimp only
  split <;> simp [updateNavigationOrder_images]

theorem add_image_fresh_nextId (db : DB) (p : String) (now : Nat)
    (b : Bool) (w d : Option Nat) (hp : ¬ p = "")
    (hf : findByPath db p = none) :
    (add_image db p now b w d).1.nextId = db.nextId + 1 := by
  rw [add_image_fresh_eq db p now b w d hp hf]
  dsimp only
  split <;> simp [updateNavigationOrder_nextId]

theorem add_image_fresh_snd (db : DB) (p : String) (now : Nat)
    (b : Bool) (w d : Option Nat) (hp : ¬ p = "")
    (hf : findByPath db p = none) :
    (add_image db p now b w d).2 = some db.nextId := by
  rw [add_image_fresh_eq db p now b w d hp hf]
  dsimp only
  split <;> rfl

/-- After `_update_navigation_order` for a key absent from the table,
exactly one navigation row carries that key. -/
theorem updateNavigationOrder_nav_count (db : DB) (n : Nat)
    (hnav : ∀ row ∈ db.nav, row.image_id ≠ n) :
    ((updateNavigationOrder db n).nav.filter
      (fun row => row.image_id = n)).length = 1 := by
  unfold updateNavigationOrder
  cases h : mostRecentExcluding db.images (some n) with
  | none =>
      dsimp only
      rw [navReplace_append hnav, List.filter_append]
      have h0 : db.nav.filter (fun row => row.image_id = n) = [] :=
        List.filter_eq_nil_iff.mpr (fun r hr => by simp [hnav r hr])
      simp [h0]
  | some last =>
      have hlast : last.id ≠ n := by
        intro e
        exact (mostRecentExcluding_mem h).2 (by rw [e])
      dsimp only
      have h1 : ∀ r ∈ navReplace db.nav
          ⟨last.id, (navFind db.nav last.id).bind (fun r => r.prev_id),
            some n⟩, r.image_id ≠ n :=
        navReplace_forall hnav hlast
      rw [navReplace_append h1, List.filter_append]
      have h0 : (navReplace db.nav
          ⟨last.id, (navFind db.nav last.id).bind (fun r => r.prev_id),
            some n⟩).filter (fun row => row.image_id = n) = [] :=
        List.filter_eq_nil_iff.mpr (fun r hr => by simp [h1 r hr])
      simp [h0]

theorem add_image_fresh_nav_count (db : DB) (p : String) (now : Nat)
    (b : Bool) (w d : Option Nat) (hp : ¬ p = "")
    (hf : findByPath db p = none)
    (hidsNav : ∀ row ∈ db.nav, row.image_id ≠ db.nextId) :
    ((add_image db p now b w d).1.nav.filter
      (fun row => row.image_id = db.nextId)).length = 1 := by
  rw [add_image_fresh_eq db p now b w d hp hf]
  dsimp only
  split
  · exact updateNavigationOrder_nav_count _ _ hidsNav
  · exact updateNavigationOrder_nav_count _ _ hidsNav

/-- Looking the path up right after the fresh insert returns the new
record. -/
theorem add_image_fresh_findByPath (db : DB) (p : String) (now : Nat)
    (b : Bool) (w d : Option Nat) (hp : ¬ p = "")
    (hf : findByPath db p = none) :
    findByPath (add_image db p now b w d).1 p =
      some ⟨db.nextId, p, now, b, w, d⟩ := by
  unfold findByPath
  rw [add_image_fresh_images db p now b w d hp hf, List.find?_append]
  have h1 : db.images.find? (fun r => r.file_path = p) = none := hf
  rw [h1, Option.none_or]
  simp [List.find?]

/-- C5: calling `add_image` twice with the same (fresh) path returns the
same id both times (the AUTOINCREMENT value of the first call), leaves
exactly one `images` row and exactly one `navigation_order` row for that
path, and the second call only rewrites the record's metadata
(timestamp, is_temporary, width, height) — the navigation table, current
position and AUTOINCREMENT counter are untouched by it.  The
`hidsImg`/`hidsNav` hypotheses are the AUTOINCREMENT discipline: every
stored id is below the counter. -/
theorem c5_add_image_idempotent (db : DB) (path : String)
    (t1 t2 : Nat) (b1 b2 : Bool) (w1 w2 d1 d2 : Option Nat)
    (hpath : ¬ path = "")
    (hfresh : findByPath db path = none)
    (hidsImg : ∀ r ∈ db.images, r.id < db.nextId)
    (hidsNav : ∀ row ∈ db.nav, row.image_id < db.nextId) :
    (add_image db path t1 b1 w1 d1).2 = some db.nextId ∧
    (add_image (add_image db path t1 b1 w1 d1).1 path t2 b2 w2 d2).2 =
      some db.nextId ∧
    (add_image (add_image db path t1 b1 w1 d1).1 path t2 b2 w2 d2).1.images
      = db.images ++ [⟨db.nextId, path, t2, b2, w2, d2⟩] ∧
    ((add_image (add_image db path t1 b1 w1 d1).1 path t2 b2 w2
        d2).1.images.filter (fun r => r.file_path = path)).length = 1 ∧
    (add_image (add_image db path t1 b1 w1 d1).1 path t2 b2 w2 d2).1.nav =
      (add_image db path t1 b1 w1 d1).1.nav ∧
    ((add_image db path t1 b1 w1 d1).1.nav.filter
      (fun row => row.image_id = db.nextId)).length = 1 ∧
    (add_image (add_image db path t1 b1 w1 d1).1 path t2 b2 w2
      d2).1.current = (add_image db path t1 b1 w1 d1).1.current ∧
    (add_image (add_image db path t1 b1 w1 d1).1 path t2 b2 w2
      d2).1.nextId = (add_image db path t1 b1 w1 d1).1.nextId := by
  have hfind := add_image_fresh_findByPath db path t1 b1 w1 d1 hpath hfresh
  have h2 := add_image_existing_eq (add_image db path t1 b1 w1 d1).1 path
    t2 b2 w2 d2 ⟨db.nextId, path, t1, b1, w1, d1⟩ hpath hfind
  have himg2 : (add_image (add_image db path t1 b1 w1 d1).1 path t2 b2 w2
      d2).1.images = db.images ++ [⟨db.nextId, path, t2, b2, w2, d2⟩] := by
    rw [h2]
    dsimp only
    rw [add_image_fresh_images db path t1 b1 w1 d1 hpath hfresh,
      List.map_append]
    congr 1
    · have : db.images.map (fun r =>
          if r.id = db.nextId then
            { r with timestamp := t2, is_temporary := b2,
                     width := w2, height := d2 }
          else r) = db.images.map id :=
        List.map_congr_left (fun r hr => by
          rw [if_neg (Nat.ne_of_lt (hidsImg r hr))]; rfl)
      rw [this, List.map_id]
    · simp
  refine ⟨add_image_fresh_snd db path t1 b1 w1 d1 hpath hfresh, ?_, himg2,
    ?_, ?_, ?_, ?_, ?_⟩
  · rw [h2]
  · rw [himg2, List.filter_append]
    have h0 : db.images.filter (fun r => r.file_path = path) = [] :=
      List.filter_eq_nil_iff.mpr (fun r hr => by
        have := List.find?_eq_none.mp hfresh r hr
        simpa using this)
    simp [h0]
  · rw [h2]
  · exact add_image_fresh_nav_count db path t1 b1 w1 d1 hpath hfresh
      (fun row hrow => Nat.ne_of_lt (hidsNav row hrow))
  · rw [h2]
  · rw [h2]

/-- Witness for `c5_add_image_idempotent`: both calls on a fresh database
return id 1 and leave singleton tables. -/
theorem c5_witness :
    (add_image initDB "A" 0 false none none).2 = some 1 ∧
    (add_image (add_image initDB "A" 0 false none none).1 "A" 7 true
      (some 3) (some 4)).2 = some 1 ∧
    (add_image (add_image initDB "A" 0 false none none).1 "A" 7 true
      (some 3) (some 4)).1.images = [⟨1, "A", 7, true, some 3, some 4⟩] := by
  have h := c5_add_image_idempotent initDB "A" 0 7 false true none (some 3)
    none (some 4) (by decide) (by decide) (by simp [initDB])
    (by simp [initDB])
  exact ⟨h.1, h.2.1, h.2.2.1⟩

/-! ## C2 — the single-path invariant (amended half) -/

theorem add_image_fresh_current (db : DB) (p : String) (now : Nat)
    (b : Bool) (w d : Option Nat) (hp : ¬ p = "")
    (hf : findByPath db p = none) :
    (add_image db p now b w d).1.current =
      if db.current = none then some db.nextId else db.current := by
  rw [add_image_fresh_eq db p now b w d hp hf]
  dsimp only
  have hcur : (updateNavigationOrder
      ⟨db.images ++ [⟨db.nextId, p, now, b, w, d⟩], db.nav, db.current,
        db.nextId + 1⟩ db.nextId).current = db.current :=
    updateNavigationOrder_current _ _
  rw [hcur]
  by_cases hc : db.current = none
  · rw [if_pos hc, if_pos hc]
  · rw [if_neg hc, if_neg hc]
    exact hcur

theorem add_image_fresh_nav (db : DB) (p : String) (now : Nat) (b : Bool)
    (w d : Option Nat) (hp : ¬ p = "") (hf : findByPath db p = none) :
    (add_image db p now b w d).1.nav =
      (updateNavigationOrder
        ⟨db.images ++ [⟨db.nextId, p, now, b, w, d⟩], db.nav, db.current,
          db.nextId + 1⟩ db.nextId).nav := by
  rw [add_image_fresh_eq db p now b w d hp hf]
  dsimp only
  split <;> rfl

/-- An appended element that is the excluded id does not change the
most-recent query. -/
theorem mostRecentExcluding_append_excluded (l : List ImageRecord)
    (r : ImageRecord) (ex : Option Nat) (h : some r.id = ex) :
    mostRecentExcluding (l ++ [r]) ex = mostRecentExcluding l ex := by
  unfold mostRecentExcluding
  rw [List.foldl_append, List.foldl_cons, List.foldl_nil]
  rw [if_pos h]

/-- Over strictly increasing timestamps the most-recent query returns the
last inserted record (when the exclusion hits no stored id). -/
theorem mostRecent_goodImages (path : Nat → String) (ts : Nat → Nat)
    (n : Nat) (ex : Option Nat)
    (hmono : ∀ j, j < n → ∀ k, k < n → j < k → ts j < ts k)
    (hex : ∀ k, k < n → ¬ ex = some (k + 1)) :
    mostRecentExcluding (goodImages path ts n) ex =
      if n = 0 then none
      else some ⟨n, path (n - 1), ts (n - 1), false, none, none⟩ := by
  induction n with
  | zero => rfl
  | succ m ih =>
      have hgi : goodImages path ts (m + 1) =
          goodImages path ts m ++ [⟨m + 1, path m, ts m, false, none,
            none⟩] := by
        unfold goodImages
        rw [List.range_succ, List.map_append]
        rfl
      rw [hgi]
      unfold mostRecentExcluding
      rw [List.foldl_append]
      have hprev := ih
        (fun j hj k hk hjk => hmono j (Nat.lt_succ_of_lt hj) k
          (Nat.lt_succ_of_lt hk) hjk)
        (fun k hk => hex k (Nat.lt_succ_of_lt hk))
      unfold mostRecentExcluding at hprev
      rw [hprev]
      simp only [List.foldl_cons, List.foldl_nil]
      dsimp only
      have hexm : ¬ some (m + 1) = ex :=
        fun h => hex m (Nat.lt_succ_self m) h.symm
      rw [if_neg hexm]
      cases m with
      | zero => simp
      | succ m' =>
          rw [if_neg (Nat.succ_ne_zero m')]
          dsimp only
          have hts : ts (m' + 1 - 1) < ts (m' + 1) :=
            hmono m' (by omega) (m' + 1) (by omega) (by omega)
          simp only [Nat.add_sub_cancel] at hts ⊢
          rw [if_pos hts]
          simp

/-- `navFind` at the tail key of the expected chain. -/
theorem navFind_chainNav_last (n : Nat) (hn : 0 < n) :
    navFind (chainNav n) n = some (chainRow n (n - 1)) := by
  obtain ⟨m, rfl⟩ : ∃ m, n = m + 1 := ⟨n - 1, by omega⟩
  unfold navFind chainNav
  rw [List.range_succ, List.map_append, List.find?_append]
  have h0 : ((List.range m).map (chainRow (m + 1))).find?
      (fun row => row.image_id = m + 1) = none := by
    rw [List.find?_eq_none]
    intro row hrow
    rcases List.mem_map.mp hrow with ⟨k, hk, rfl⟩
    have hk' := List.mem_range.mp hk
    simp [chainRow]
    omega
  rw [h0, Option.none_or]
  have : (chainRow (m + 1) m).image_id = m + 1 := rfl
  simp [List.find?, this, Nat.add_sub_cancel]

/-- On the expected chain every defined `next` step increments the id. -/
theorem stepNext_chainNav (n : Nat) :
    ∀ i j, stepNext (chainNav n) i = some j → j = i + 1 := by
  intro i j h
  unfold stepNext at h
  cases hf : navFind (chainNav n) i with
  | none => rw [hf] at h; cases h
  | some row =>
      rw [hf] at h
      dsimp only [Option.bind] at h
      have hf' : (chainNav n).find? (fun row => row.image_id = i) =
          some row := hf
      have hmem := List.mem_of_find?_eq_some hf'
      have hid : row.image_id = i := by
        have := List.find?_some hf'
        simpa using this
      rcases List.mem_map.mp hmem with ⟨k, hk, rfl⟩
      unfold chainRow at hid h
      dsimp only at hid h
      by_cases hkn : k + 1 = n
      · rw [if_pos hkn] at h; cases h
      · rw [if_neg hkn] at h
        cases h
        omega

/-- Iterating a step that always increments adds the step count. -/
theorem iterNext_add (nav : List NavRow)
    (hstep : ∀ i j, stepNext nav i = some j → j = i + 1) :
    ∀ m i j, iterNext nav m i = some j → j = i + m := by
  intro m
  induction m with
  | zero =>
      intro i j h
      cases h
      rfl
  | succ m ih =>
      intro i j h
      rw [iterNext] at h
      cases hs : stepNext nav i with
      | none => rw [hs] at h; cases h
      | some x =>
          rw [hs] at h
          dsimp only [Option.bind] at h
          have hx := ih x j h
          have := hstep i x hs
          omega

/-- The expected chain satisfies the claimed single-path shape. -/
theorem chainNav_simplePath (n : Nat) : SimplePath (chainNav n) := by
  refine ⟨?_, ?_, ?_⟩
  · intro a ha b hb hne heq
    rcases List.mem_map.mp ha with ⟨j, hj, rfl⟩
    rcases List.mem_map.mp hb with ⟨k, hk, rfl⟩
    unfold chainRow at hne heq ⊢
    by_cases hjn : j + 1 = n
    · rw [if_pos hjn] at hne
      exact absurd rfl hne
    · rw [if_neg hjn] at heq
      by_cases hkn : k + 1 = n
      · rw [if_pos hkn] at heq; cases heq
      · rw [if_neg hkn] at heq
        have : j = k := by
          have := Option.some.inj heq
          omega
        rw [this]
  · intro a ha b hb hne heq
    rcases List.mem_map.mp ha with ⟨j, hj, rfl⟩
    rcases List.mem_map.mp hb with ⟨k, hk, rfl⟩
    unfold chainRow at hne heq ⊢
    by_cases hj0 : j = 0
    · rw [if_pos hj0] at hne
      exact absurd rfl hne
    · rw [if_neg hj0] at heq
      by_cases hk0 : k = 0
      · rw [if_pos hk0] at heq; cases heq
      · rw [if_neg hk0] at heq
        have : j = k := Option.some.inj heq
        rw [this]
  · intro r hr k hk hcontra
    have := iterNext_add (chainNav n) (stepNext_chainNav n) (k + 1)
      r.image_id r.image_id hcontra
    omega

/-- Characterization of `n` disciplined `add_image` calls (fresh pairwise
distinct non-empty paths, strictly increasing timestamps): the tables
have exactly the expected shape. -/
theorem iterAdd_spec (path : Nat → String) (ts : Nat → Nat) (n : Nat)
    (hpath : ∀ k, k < n → ¬ path k = "")
    (hinj : ∀ j, j < n → ∀ k, k < n → path j = path k → j = k)
    (hmono : ∀ j, j < n → ∀ k, k < n → j < k → ts j < ts k) :
    (iterAdd path ts n).images = goodImages path ts n ∧
    (iterAdd path ts n).nav = chainNav n ∧
    (iterAdd path ts n).nextId = n + 1 ∧
    (iterAdd path ts n).current = if n = 0 then none else some 1 := by
  induction n with
  | zero => exact ⟨rfl, rfl, rfl, rfl⟩
  | succ m ih =>
      obtain ⟨hImg, hNav, hNext, hCur⟩ := ih
        (fun k hk => hpath k (Nat.lt_succ_of_lt hk))
        (fun j hj k hk => hinj j (Nat.lt_succ_of_lt hj) k
          (Nat.lt_succ_of_lt hk))
        (fun j hj k hk => hmono j (Nat.lt_succ_of_lt hj) k
          (Nat.lt_succ_of_lt hk))
      have hp : ¬ path m = "" := hpath m (Nat.lt_succ_self m)
      have hf : findByPath (iterAdd path ts m) (path m) = none := by
        unfold findByPath
        rw [hImg, List.find?_eq_none]
        intro r hr
        rcases List.mem_map.mp hr with ⟨k, hk, rfl⟩
        have hk' := List.mem_range.mp hk
        simp only [decide_eq_true_eq]
        intro he
        have := hinj k (by omega) m (by omega) he
        omega
      have hImages : (iterAdd path ts (m + 1)).images =
          goodImages path ts (m + 1) := by
        show (add_image (iterAdd path ts m) (path m) (ts m) false none
          none).1.images = _
        rw [add_image_fresh_images _ _ _ _ _ _ hp hf, hImg, hNext]
        unfold goodImages
        rw [List.range_succ, List.map_append]
        rfl
      have hNextId : (iterAdd path ts (m + 1)).nextId = m + 1 + 1 := by
        show (add_image (iterAdd path ts m) (path m) (ts m) false none
          none).1.nextId = _
        rw [add_image_fresh_nextId _ _ _ _ _ _ hp hf, hNext]
      have hCurrent : (iterAdd path ts (m + 1)).current =
          if m + 1 = 0 then none else some 1 := by
        show (add_image (iterAdd path ts m) (path m) (ts m) false none
          none).1.current = _
        rw [add_image_fresh_current _ _ _ _ _ _ hp hf, hCur, hNext]
        cases m with
        | zero => simp
        | succ m' => simp
      have hmr : mostRecentExcluding (goodImages path ts m ++
          [⟨m + 1, path m, ts m, false, none, none⟩]) (some (m + 1)) =
          if m = 0 then none
          else some ⟨m, path (m - 1), ts (m - 1), false, none, none⟩ := by
        rw [mostRecentExcluding_append_excluded _ _ _ rfl]
        refine mostRecent_goodImages path ts m (some (m + 1))
          (fun j hj k hk => hmono j (by omega) k (by omega)) ?_
        intro k hk h
        have := Option.some.inj h
        omega
      have hNavStep : (iterAdd path ts (m + 1)).nav = chainNav (m + 1) := by
        show (add_image (iterAdd path ts m) (path m) (ts m) false none
          none).1.nav = _
        rw [add_image_fresh_nav _ _ _ _ _ _ hp hf, hImg, hNav, hNext, hCur]
        unfold updateNavigationOrder
        dsimp only
        rw [hmr]
        cases m with
        | zero => rfl
        | succ m' =>
            rw [if_neg (Nat.succ_ne_zero m')]
            dsimp only
            rw [navFind_chainNav_last (m' + 1) (Nat.succ_pos m')]
            have hprevRow : ((chainRow (m' + 1) (m' + 1 - 1)) :
                NavRow).prev_id =
                if m' = 0 then none else some m' := by
              unfold chainRow
              simp only [Nat.add_sub_cancel]
            dsimp only [Option.bind]
            have hA : navReplace (chainNav (m' + 1))
                ⟨m' + 1, (chainRow (m' + 1) (m' + 1 - 1)).prev_id,
                  some (m' + 1 + 1)⟩ =
                (List.range (m' + 1)).map (chainRow (m' + 1 + 1)) := by
              unfold navReplace
              rw [if_pos]
              · unfold chainNav
                rw [List.map_map]
                refine List.map_congr_left ?_
                intro k hk
                have hk' := List.mem_range.mp hk
                simp only [Function.comp]
                by_cases hkm : k = m'
                · subst hkm
                  rw [if_pos (by unfold chainRow; rfl)]
                  unfold chainRow
                  simp only [Nat.add_sub_cancel]
                  rw [if_neg (by omega : ¬ k + 1 = k + 1 + 1)]
                · have hne : ¬ (chainRow (m' + 1) k).image_id = m' + 1 := by
                    unfold chainRow
                    dsimp only
                    omega
                  rw [if_neg hne]
                  unfold chainRow
                  rw [if_neg (by omega : ¬ k + 1 = m' + 1),
                    if_neg (by omega : ¬ k + 1 = m' + 1 + 1)]
              · rw [List.any_eq_true]
                refine ⟨chainRow (m' + 1) m', List.mem_map.mpr
                  ⟨m', List.mem_range.mpr (Nat.lt_succ_self m'), rfl⟩, ?_⟩
                simp [chainRow]
            rw [hA]
            have hB : navReplace ((List.range (m' + 1)).map
                (chainRow (m' + 1 + 1))) ⟨m' + 1 + 1, some (m' + 1), none⟩ =
                (List.range (m' + 1)).map (chainRow (m' + 1 + 1)) ++
                  [⟨m' + 1 + 1, some (m' + 1), none⟩] := by
              refine navReplace_append ?_
              intro r hr
              rcases List.mem_map.mp hr with ⟨k, hk, rfl⟩
              have hk' := List.mem_range.mp hk
              unfold chainRow
              dsimp only
              omega
            rw [hB]
            unfold chainNav
            conv_rhs => rw [List.range_succ, List.map_append]
            congr 1
            simp only [List.map_cons, List.map_nil, chainRow]
            simp
      exact ⟨hImages, hNavStep, hNextId, hCurrent⟩

/-- C2 amended: the single-path invariant holds for `add_image` sequences
that stay in the regime the linking code assumes — every call uses a
fresh (pairwise distinct, non-empty) path and a strictly larger timestamp
than all earlier calls.  Then the navigation rows form exactly one simple
path (no cycle, no node referenced twice as `next_id` or as `prev_id`)
and the newest image sits at the tail, linked after the previously
inserted image.  (`c2_counterexample` shows the invariant break once a
re-add makes timestamp order diverge from link order.) -/
theorem c2_amended_single_path_for_disciplined_adds
    (path : Nat → String) (ts : Nat → Nat) (n : Nat)
    (hpath : ∀ k, k < n → ¬ path k = "")
    (hinj : ∀ j, j < n → ∀ k, k < n → path j = path k → j = k)
    (hmono : ∀ j, j < n → ∀ k, k < n → j < k → ts j < ts k)
    (hn : 0 < n) :
    SimplePath (iterAdd path ts n).nav ∧
    navFind (iterAdd path ts n).nav n =
      some ⟨n, if n = 1 then none else some (n - 1), none⟩ := by
  obtain ⟨-, hNav, -, -⟩ := iterAdd_spec path ts n hpath hinj hmono
  rw [hNav]
  refine ⟨chainNav_simplePath n, ?_⟩
  rw [navFind_chainNav_last n hn]
  unfold chainRow
  congr 1
  have h1 : n - 1 + 1 = n := by omega
  rw [h1]
  by_cases hone : n = 1
  · rw [if_pos hone, if_pos (by omega : n - 1 = 0), if_pos rfl]
  · rw [if_neg hone, if_neg (by omega : ¬ n - 1 = 0), if_pos rfl]

/-- Witness for `c2_amended_single_path_for_disciplined_adds`: three
fresh adds A, B, C at times 0, 1, 2 leave the single path 1 → 2 → 3 with
the tail row for id 3. -/
theorem c2_amended_witness :
    SimplePath (iterAdd (fun k => ["A", "B", "C"].getD k "")
      (fun k => k) 3).nav ∧
    navFind (iterAdd (fun k => ["A", "B", "C"].getD k "")
      (fun k => k) 3).nav 3 = some ⟨3, some 2, none⟩ := by
  have h := c2_amended_single_path_for_disciplined_adds
    (fun k => ["A", "B", "C"].getD k "") (fun k => k) 3
    (by decide) (by decide) (fun j hj k hk hjk => hjk) (by decide)
  exact ⟨h.1, by rw [h.2]; decide⟩

/-! ## C7 — reconciliation safety -/

/-- C7 counterexample, running the embedded pipeline end to end.
Directory `d` holds `0000.png` (content 1), `00.png` (content 2) and
`0001.png` (content 3).  The plan renames `00.png → 0001.png` (index 1)
and `0001.png → 0002.png` (index 2).  Applying the first rename finds
`0001.png` occupied, moves the occupant to `0001.png.tmp`, moves
`00.png` into place and then deletes the temporary sibling — destroying
content 3, which was still awaiting its own rename.  The final directory
is `0000.png, 0002.png`: one image's content is lost and the numbering
has a gap at `0001`. -/
theorem c7_counterexample :
    reconcile [("d/0000.png", 1), ("d/00.png", 2), ("d/0001.png", 3)] "d"
      ["0000.png", "00.png", "0001.png"] =
      some ([("d/0000.png", 1), ("d/0002.png", 2)],
        [("d/00.png", "d/0001.png"), ("d/0001.png", "d/0002.png")]) ∧
    (3 : Nat) ∈
      ([("d/0000.png", 1), ("d/00.png", 2), ("d/0001.png", 3)] : FS).map
        Prod.snd ∧
    ¬ (3 : Nat) ∈ ([("d/0000.png", 1), ("d/0002.png", 2)] : FS).map
      Prod.snd ∧
    fsExists [("d/0000.png", 1), ("d/0002.png", 2)] "d/0001.png" =
      false := by
  decide

theorem fsGet_remove_self (fs : FS) (p : String) :
    fsGet (fsRemove fs p) p = none := by
  induction fs with
  | nil => rfl
  | cons e rest ih =>
      unfold fsRemove
      by_cases h : e.1 = p
      · rw [if_pos h]
        exact ih
      · rw [if_neg h]
        unfold fsGet
        rw [if_neg h]
        exact ih

theorem fsGet_remove_ne (fs : FS) (p q : String) (h : ¬ q = p) :
    fsGet (fsRemove fs p) q = fsGet fs q := by
  induction fs with
  | nil => rfl
  | cons e rest ih =>
      unfold fsRemove
      by_cases he : e.1 = p
      · rw [if_pos he, ih]
        conv_rhs => unfold fsGet
        rw [if_neg (fun e1 : e.1 = q => h (e1 ▸ he))]
      · rw [if_neg he]
        unfold fsGet
        by_cases he2 : e.1 = q
        · rw [if_pos he2, if_pos he2]
        · rw [if_neg he2, if_neg he2]
          exact ih

theorem fsGet_append (l1 l2 : FS) (p : String) :
    fsGet (l1 ++ l2) p = (fsGet l1 p).or (fsGet l2 p) := by
  induction l1 with
  | nil => rfl
  | cons e rest ih =>
      rw [List.cons_append]
      show (if e.1 = p then some e.2 else fsGet (rest ++ l2) p) =
        ((if e.1 = p then some e.2 else fsGet rest p).or (fsGet l2 p))
      by_cases h : e.1 = p
      · rw [if_pos h, if_pos h]
        rfl
      · rw [if_neg h, if_neg h]
        exact ih

theorem fsGet_move_dst (fs : FS) (s d : String) (c : Nat)
    (h : fsGet fs s = some c) : fsGet (fsMove fs s d) d = some c := by
  unfold fsMove
  rw [h, fsGet_append, fsGet_remove_self, Option.none_or]
  show (if d = d then some c else fsGet [] d) = some c
  rw [if_pos rfl]

theorem fsGet_move_other (fs : FS) (s d x : String) (hxs : ¬ x = s)
    (hxd : ¬ x = d) : fsGet (fsMove fs s d) x = fsGet fs x := by
  unfold fsMove
  cases h : fsGet fs s with
  | none => rfl
  | some c =>
      have hnone : fsGet [(d, c)] x = none := by
        show (if d = x then some c else fsGet [] x) = none
        rw [if_neg (fun e => hxd e.symm)]
        rfl
      rw [fsGet_append, fsGet_remove_ne _ _ _ hxd,
        fsGet_remove_ne _ _ _ hxs, hnone, Option.or_none]

/-- C7 amended: applying the rename plan is loss-free exactly in the
regime where no planned destination is an already-existing file.  If
every source exists, every destination is absent from the directory,
destinations are pairwise distinct, sources are pairwise distinct, and
no destination doubles as a source, then every rename succeeds, each
destination ends up with exactly its source's former content, and every
unmentioned file is untouched — so no content is lost.  (When a
destination *is* occupied — as in `c7_counterexample` — the occupant's
temporary copy is deleted after the swap even if the occupant was still
awaiting its own rename, and its content is lost.) -/
theorem c7_amended_apply_plan_fresh_dests (plan : List (String × String)) :
    ∀ fs : FS,
    (∀ p ∈ plan, fsExists fs p.1 = true) →
    (∀ p ∈ plan, fsExists fs p.2 = false) →
    (plan.map Prod.snd).Nodup →
    (plan.map Prod.fst).Nodup →
    (∀ p ∈ plan, ¬ p.2 ∈ plan.map Prod.fst) →
    (∀ p ∈ plan, fsGet (applyPlan fs plan).1 p.2 = fsGet fs p.1) ∧
    (∀ q : String, ¬ q ∈ plan.map Prod.fst → ¬ q ∈ plan.map Prod.snd →
      fsGet (applyPlan fs plan).1 q = fsGet fs q) ∧
    (applyPlan fs plan).2 = plan := by
  induction plan with
  | nil =>
      intro fs _ _ _ _ _
      exact ⟨fun p hp => absurd hp (List.not_mem_nil p),
        fun q _ _ => rfl, rfl⟩
  | cons pr rest ih =>
      intro fs hsrc hdst hdnodup hsnodup hds
      obtain ⟨o, n⟩ := pr
      have hmem0 : (o, n) ∈ (o, n) :: rest := List.mem_cons_self _ _
      have hdn : fsExists fs n = false := hdst (o, n) hmem0
      obtain ⟨c, hc⟩ : ∃ c, fsGet fs o = some c := by
        have := hsrc (o, n) hmem0
        unfold fsExists at this
        exact Option.isSome_iff_exists.mp this
      have hno : ¬ n = o := by
        intro e
        exact (hds (o, n) hmem0) (e ▸ List.mem_cons_self o _)
      have hr : applyRename fs o n = (fsMove fs o n, true) := by
        unfold applyRename
        rw [if_neg (fun hcond => by
          rw [hdn] at hcond
          exact Bool.false_ne_true hcond.1)]
        rw [hc]
      have happ : applyPlan fs ((o, n) :: rest) =
          ((applyPlan (fsMove fs o n) rest).1,
            (o, n) :: (applyPlan (fsMove fs o n) rest).2) := by
        show (let r := applyRename fs o n
              let rr := applyPlan r.1 rest
              (rr.1, (if r.2 then [(o, n)] else []) ++ rr.2)) = _
        rw [hr]
        rfl
      -- the head's source and destination are not mentioned in the rest
      have hnotailsrc : ¬ n ∈ rest.map Prod.fst := by
        intro hmem
        exact (hds (o, n) hmem0) (by
          rw [List.map_cons]
          exact List.mem_cons_of_mem _ hmem)
      have hnotaildst : ¬ n ∈ rest.map Prod.snd := by
        intro hmem
        rw [List.map_cons] at hdnodup
        exact (List.nodup_cons.mp hdnodup).1 hmem
      have hnotailsrc_o : ¬ o ∈ rest.map Prod.fst := by
        intro hmem
        rw [List.map_cons] at hsnodup
        exact (List.nodup_cons.mp hsnodup).1 hmem
      -- hypotheses of the induction for the moved filesystem
      have hsrc' : ∀ p ∈ rest, fsExists (fsMove fs o n) p.1 = true := by
        intro p hp
        have hps : ¬ p.1 = o := fun e => hnotailsrc_o
          (e ▸ List.mem_map.mpr ⟨p, hp, rfl⟩)
        have hpn : ¬ p.1 = n := fun e => hnotailsrc
          (e ▸ List.mem_map.mpr ⟨p, hp, rfl⟩)
        unfold fsExists
        rw [fsGet_move_other fs o n p.1 hps hpn]
        exact hsrc p (List.mem_cons_of_mem _ hp)
      have hdst' : ∀ p ∈ rest, fsExists (fsMove fs o n) p.2 = false := by
        intro p hp
        have hpn : ¬ p.2 = n := fun e => hnotaildst
          (e ▸ List.mem_map.mpr ⟨p, hp, rfl⟩)
        have hpo : ¬ p.2 = o := fun e =>
          (hds p (List.mem_cons_of_mem _ hp)) (by
            rw [List.map_cons, e]
            exact List.mem_cons_self o _)
        unfold fsExists
        rw [fsGet_move_other fs o n p.2 hpo hpn]
        exact hdst p (List.mem_cons_of_mem _ hp)
      have hdn' : (rest.map Prod.snd).Nodup := by
        rw [List.map_cons] at hdnodup
        exact (List.nodup_cons.mp hdnodup).2
      have hsn' : (rest.map Prod.fst).Nodup := by
        rw [List.map_cons] at hsnodup
        exact (List.nodup_cons.mp hsnodup).2
      have hds' : ∀ p ∈ rest, ¬ p.2 ∈ rest.map Prod.fst := by
        intro p hp hmem
        exact (hds p (List.mem_cons_of_mem _ hp)) (by
          rw [List.map_cons]
          exact List.mem_cons_of_mem _ hmem)
      obtain ⟨ih1, ih2, ih3⟩ :=
        ih (fsMove fs o n) hsrc' hdst' hdn' hsn' hds'
      refine ⟨?_, ?_, ?_⟩
      · intro p hp
        rw [happ]
        rcases List.mem_cons.mp hp with rfl | hp'
        · show fsGet (applyPlan (fsMove fs o n) rest).1 n = fsGet fs o
          rw [ih2 n hnotailsrc hnotaildst, fsGet_move_dst fs o n c hc, hc]
        · show fsGet (applyPlan (fsMove fs o n) rest).1 p.2 = fsGet fs p.1
          rw [ih1 p hp']
          have hps : ¬ p.1 = o := fun e => hnotailsrc_o
            (e ▸ List.mem_map.mpr ⟨p, hp', rfl⟩)
          have hpn : ¬ p.1 = n := fun e => hnotailsrc
            (e ▸ List.mem_map.mpr ⟨p, hp', rfl⟩)
          exact fsGet_move_other fs o n p.1 hps hpn
      · intro q hqs hqd
        rw [happ]
        have hqo : ¬ q = o := fun e => hqs (by
          rw [List.map_cons, e]
          exact List.mem_cons_self o _)
        have hqn : ¬ q = n := fun e => hqd (by
          rw [List.map_cons, e]
          exact List.mem_cons_self n _)
        have hqs' : ¬ q ∈ rest.map Prod.fst := fun hmem => hqs (by
          rw [List.map_cons]
          exact List.mem_cons_of_mem _ hmem)
        have hqd' : ¬ q ∈ rest.map Prod.snd := fun hmem => hqd (by
          rw [List.map_cons]
          exact List.mem_cons_of_mem _ hmem)
        show fsGet (applyPlan (fsMove fs o n) rest).1 q = fsGet fs q
        rw [ih2 q hqs' hqd']
        exact fsGet_move_other fs o n q hqo hqn
      · rw [happ]
        show (o, n) :: (applyPlan (fsMove fs o n) rest).2 = (o, n) :: rest
        rw [ih3]

/-- Witness for `c7_amended_apply_plan_fresh_dests`: a two-step plan with
fresh destinations moves both contents and touches nothing else. -/
theorem c7_amended_witness :
    fsGet (applyPlan [("d/a.png", 1), ("d/b.png", 2), ("d/keep.png", 3)]
      [("d/a.png", "d/0000.png"), ("d/b.png", "d/0001.png")]).1
      "d/0000.png" = some 1 ∧
    fsGet (applyPlan [("d/a.png", 1), ("d/b.png", 2), ("d/keep.png", 3)]
      [("d/a.png", "d/0000.png"), ("d/b.png", "d/0001.png")]).1
      "d/keep.png" = some 3 := by
  have h := c7_amended_apply_plan_fresh_dests
    [("d/a.png", "d/0000.png"), ("d/b.png", "d/0001.png")]
    [("d/a.png", 1), ("d/b.png", 2), ("d/keep.png", 3)]
    (by decide) (by decide) (by decide) (by decide) (by decide)
  refine ⟨?_, ?_⟩
  · have := h.1 ("d/a.png", "d/0000.png") (by decide)
    rw [this]
    decide
  · have := h.2.1 "d/keep.png" (by decide) (by decide)
    rw [this]
    decide

/-! ## C8 — lowest free counter and the 10,000-slot capacity -/

theorem charDigit?_digitChar (d : Nat) (h : d < 10) :
    charDigit? (digitChar d) = some d := by
  interval_cases d <;> decide

theorem parseDigitsAux_cons (acc : Nat) (ch : Char) (rest : List Char)
    (d : Nat) (h : charDigit? ch = some d) :
    parseDigitsAux acc (ch :: rest) = parseDigitsAux (acc * 10 + d) rest := by
  conv_lhs => unfold parseDigitsAux
  rw [h]

/-- Formatting then parsing a 4-digit counter is the identity. -/
theorem parsePyNat_pad4 (c : Nat) (hc : c ≤ 9999) :
    parsePyNat (pad4 c).data = some c := by
  have h3 : c / 1000 % 10 < 10 := Nat.mod_lt _ (by omega)
  have h2 : c / 100 % 10 < 10 := Nat.mod_lt _ (by omega)
  have h1 : c / 10 % 10 < 10 := Nat.mod_lt _ (by omega)
  have h0 : c % 10 < 10 := Nat.mod_lt _ (by omega)
  show parseDigitsAux 0 [digitChar (c / 1000 % 10), digitChar (c / 100 % 10),
    digitChar (c / 10 % 10), digitChar (c % 10)] = some c
  rw [parseDigitsAux_cons _ _ _ _ (charDigit?_digitChar _ h3),
    parseDigitsAux_cons _ _ _ _ (charDigit?_digitChar _ h2),
    parseDigitsAux_cons _ _ _ _ (charDigit?_digitChar _ h1),
    parseDigitsAux_cons _ _ _ _ (charDigit?_digitChar _ h0)]
  show some _ = some c
  congr 1
  omega

theorem dropWhile_append_all {α : Type} (p : α → Bool) (l1 l2 : List α)
    (h : ∀ a ∈ l1, p a = true) :
    (l1 ++ l2).dropWhile p = l2.dropWhile p := by
  induction l1 with
  | nil => rfl
  | cons a rest ih =>
      rw [List.cons_append, List.dropWhile_cons,
        if_pos (h a (List.mem_cons_self _ _))]
      exact ih (fun b hb => h b (List.mem_cons_of_mem _ hb))

/-- The stem of `s ++ "." ++ e` is `s` when `e` holds no dot. -/
theorem stemChars_append (s e : List Char)
    (he : ∀ ch ∈ e, ¬ ch = '.') :
    stemChars (s ++ '.' :: e) = s := by
  unfold stemChars
  rw [List.reverse_append, List.reverse_cons, List.append_assoc,
    List.singleton_append]
  rw [dropWhile_append_all _ e.reverse _
    (fun a ha => by simpa using he a (List.mem_reverse.mp ha))]
  rw [List.dropWhile_cons, if_neg (by simp)]
  simp

/-- A digit character is never `'T'`, so digit-only stems are not
stripped. -/
theorem digitChar_beq_T (d : Nat) (h : d < 10) :
    (digitChar d == 'T') = false := by
  interval_cases d <;> decide

theorem endsTU_pad4 (c : Nat) : endsTU (pad4 c).data = false := by
  have h0 : c % 10 < 10 := Nat.mod_lt _ (by omega)
  show (digitChar (c % 10) == 'T' && digitChar (c / 10 % 10) == '_') = false
  rw [digitChar_beq_T _ h0]
  rfl

/-- Parsing a generated name `"{c:04d}[_T].{ext}"` recovers `c` whenever
the extension holds no dot. -/
theorem parseUsedCounter_generated (c : Nat) (hc : c ≤ 9999)
    (tmp : Bool) (ext : String) (hext : ∀ ch ∈ ext.data, ¬ ch = '.') :
    parseUsedCounter
      ((if tmp then pad4 c ++ "_T" else pad4 c) ++ "." ++ ext) =
      some c := by
  have hdata : ((if tmp then pad4 c ++ "_T" else pad4 c) ++ "." ++
      ext).data = (if tmp then (pad4 c).data ++ ['_', 'T']
        else (pad4 c).data) ++ '.' :: ext.data := by
    rw [String.data_append, String.data_append]
    cases tmp with
    | false => rfl
    | true =>
        rw [if_pos rfl, if_pos rfl, String.data_append]
        rfl
  unfold parseUsedCounter
  rw [hdata]
  rw [if_pos (by
    refine List.elem_iff.mpr ?_
    exact List.mem_append.mpr (Or.inr (List.mem_cons_self _ _)))]
  rw [stemChars_append _ _ hext]
  cases tmp with
  | false =>
      rw [if_neg (by decide : ¬ (false = true))]
      unfold stripTempSuffix
      rw [if_neg (fun hh => by
        rw [endsTU_pad4 c] at hh
        exact Bool.false_ne_true hh)]
      exact parsePyNat_pad4 c hc
  | true =>
      rw [if_pos rfl]
      unfold stripTempSuffix
      rw [if_pos (by
        unfold endsTU
        rw [List.reverse_append]
        rfl)]
      rw [List.reverse_append]
      show parsePyNat
        ((['T', '_'] ++ (pad4 c).data.reverse).drop 2).reverse = some c
      rw [show (['T', '_'] ++ (pad4 c).data.reverse).drop 2 =
        (pad4 c).data.reverse from rfl]
      rw [List.reverse_reverse]
      exact parsePyNat_pad4 c hc

/-- If the counter search succeeds, the found counter is free, at most
9999 (from a start at most 9999), and every smaller counter from the
start on is taken — it is the lowest free slot. -/
theorem findFreeCounterGo_ok (used : List Nat) :
    ∀ fuel start c, findFreeCounterGo used fuel start = Except.ok c →
      ¬ c ∈ used ∧ start ≤ c ∧ (start ≤ 9999 → c ≤ 9999) ∧
      ∀ k, start ≤ k → k < c → k ∈ used := by
  intro fuel
  induction fuel with
  | zero =>
      intro start c h
      exact absurd h (by simp [findFreeCounterGo])
  | succ f ih =>
      intro start c h
      unfold findFreeCounterGo at h
      by_cases hs : start ∈ used
      · rw [if_pos hs] at h
        by_cases h9 : start + 1 > 9999
        · rw [if_pos h9] at h
          exact absurd h (by simp)
        · rw [if_neg h9] at h
          obtain ⟨hc1, hc2, hc3, hc4⟩ := ih (start + 1) c h
          refine ⟨hc1, by omega, fun _ => hc3 (by omega), ?_⟩
          intro k hk1 hk2
          by_cases hk : k = start
          · exact hk ▸ hs
          · exact hc4 k (by omega) hk2
      · rw [if_neg hs] at h
        cases h
        exact ⟨hs, Nat.le_refl _, fun h => h, fun k h1 h2 => by omega⟩

/-- With every slot 0..9999 taken the loop always raises. -/
theorem findFreeCounterGo_full (used : List Nat)
    (hfull : ∀ k, k ≤ 9999 → k ∈ used) :
    ∀ fuel start, start ≤ 9999 →
      findFreeCounterGo used fuel start = Except.error
        "Maximum number of files (9999) reached in the directory" := by
  intro fuel
  induction fuel with
  | zero => intro start _; rfl
  | succ f ih =>
      intro start h
      unfold findFreeCounterGo
      rw [if_pos (hfull start h)]
      by_cases h9 : start + 1 > 9999
      · rw [if_pos h9]
      · rw [if_neg h9]
        exact ih (start + 1) (by omega)

/-- C8: `_generate_filename` assigns the lowest 4-digit counter not used
by any existing file of the directory, formatted
`"{counter:04d}[_T].{ext}"`; and when all 10,000 counters 0000..9999 are
taken it raises (RuntimeError), which `save_image` swallows, returning
None with the directory untouched — no file is created or modified. -/
theorem c8_lowest_counter_and_capacity (fs : FS) (ft : String)
    (tmp : Bool) (contents : Nat) :
    (∀ c, findFreeCounter (usedCounters (fs.map Prod.fst)) 0 =
        Except.ok c →
      ¬ c ∈ usedCounters (fs.map Prod.fst) ∧ c ≤ 9999 ∧
      (∀ k, k < c → k ∈ usedCounters (fs.map Prod.fst)) ∧
      generateFilename (fs.map Prod.fst) ft tmp =
        Except.ok ((if tmp then pad4 c ++ "_T" else pad4 c) ++ "." ++
          normalizeExt ft)) ∧
    ((∀ k, k ≤ 9999 → k ∈ usedCounters (fs.map Prod.fst)) →
      generateFilename (fs.map Prod.fst) ft tmp = Except.error
        "Maximum number of files (9999) reached in the directory" ∧
      save_image fs contents ft tmp = (fs, none)) := by
  constructor
  · intro c h
    obtain ⟨h1, _, h3, h4⟩ :=
      findFreeCounterGo_ok (usedCounters (fs.map Prod.fst)) (10001 - 0) 0 c h
    refine ⟨h1, h3 (by omega), fun k hk => h4 k (Nat.zero_le k) hk, ?_⟩
    unfold generateFilename
    rw [h]
  · intro hfull
    have herr : findFreeCounter (usedCounters (fs.map Prod.fst)) 0 =
        Except.error
          "Maximum number of files (9999) reached in the directory" :=
      findFreeCounterGo_full (usedCounters (fs.map Prod.fst)) hfull
        (10001 - 0) 0 (by omega)
    have hgen : generateFilename (fs.map Prod.fst) ft tmp = Except.error
        "Maximum number of files (9999) reached in the directory" := by
      unfold generateFilename
      rw [herr]
    refine ⟨hgen, ?_⟩
    unfold save_image
    rw [hgen]

/-- The generated no-suffix name coincides with the plain
`pad4 c ++ ".png"` spelling. -/
theorem generatedName_plain (c : Nat) :
    (if false then pad4 c ++ "_T" else pad4 c) ++ "." ++ "png" =
      pad4 c ++ ".png" := by
  rw [if_neg (by decide : ¬ (false = true)), String.append_assoc]
  congr 1

/-- Every counter 0..9999 is used in a directory holding
`0000.png` .. `9999.png`. -/
theorem mem_usedCounters_fullRange (k : Nat) (hk : k ≤ 9999) :
    k ∈ usedCounters (((List.range 10000).map
      (fun j => ((pad4 j ++ ".png", j) : String × Nat))).map Prod.fst) := by
  refine List.mem_filterMap.mpr ⟨pad4 k ++ ".png", ?_, ?_⟩
  · rw [List.map_map]
    exact List.mem_map.mpr ⟨k, List.mem_range.mpr (by omega), rfl⟩
  · have hp := parseUsedCounter_generated k hk false "png" (by decide)
    rw [generatedName_plain k] at hp
    exact hp

/-- Witness for `c8_lowest_counter_and_capacity`: on a small directory
the lowest free counter 1 is chosen and formatted; on a directory whose
10,000 slots are all taken, `save_image` returns None and leaves the
directory unchanged. -/
theorem c8_witness :
    (¬ 1 ∈ usedCounters (([("0000.png", 0), ("0002.png", 2)] : FS).map
      Prod.fst) ∧
     (0 : Nat) ∈ usedCounters (([("0000.png", 0), ("0002.png", 2)] : FS).map
      Prod.fst) ∧
     generateFilename (([("0000.png", 0), ("0002.png", 2)] : FS).map
      Prod.fst) "png" false = Except.ok "0001.png") ∧
    save_image ((List.range 10000).map
        (fun j => ((pad4 j ++ ".png", j) : String × Nat))) 5 "png" false =
      ((List.range 10000).map
        (fun j => ((pad4 j ++ ".png", j) : String × Nat)), none) := by
  constructor
  · have h := (c8_lowest_counter_and_capacity
      [("0000.png", 0), ("0002.png", 2)] "png" false 5).1 1 (by decide)
    refine ⟨h.1, h.2.2.1 0 (by decide), ?_⟩
    rw [h.2.2.2]
    decide
  · exact ((c8_lowest_counter_and_capacity _ "png" false 5).2
      (fun k hk => mem_usedCounters_fullRange k hk)).2

/-! ## C9 — no content-addressed de-duplication exists -/

/-- C9 counterexample: the directory holds `0000.png` with content token
7; persisting the *identical* bytes (same content, hence the same CRC-32
fingerprint) does not return the existing path — `save_image` allocates
the next counter and writes a second copy at `0001.png`. -/
theorem c9_counterexample :
    (save_image [("0000.png", 7)] 7 "png" false).2 = some "0001.png" ∧
    ¬ (save_image [("0000.png", 7)] 7 "png" false).2 = some "0000.png" ∧
    (save_image [("0000.png", 7)] 7 "png" false).1 =
      [("0000.png", 7), ("0001.png", 7)] := by
  decide

/-- C9 amended: `save_image` never consults a fingerprint —
`_get_image_crc` has no caller — so every successful save appends a new
file under the freshly generated name, and that name never coincides
with an existing file's name (its counter is unused), even when a file
with byte-identical content is already present.  The hypothesis on the
extension (no interior dot after normalization) matches every real image
extension. -/
theorem c9_no_dedup_always_writes_new_file (fs : FS) (contents : Nat)
    (ft : String) (tmp : Bool) (name : String)
    (hok : generateFilename (fs.map Prod.fst) ft tmp = Except.ok name)
    (hext : ∀ ch ∈ (normalizeExt ft).data, ¬ ch = '.') :
    save_image fs contents ft tmp = (fs ++ [(name, contents)], some name) ∧
    ¬ name ∈ fs.map Prod.fst := by
  constructor
  · unfold save_image
    rw [hok]
  · unfold generateFilename at hok
    cases hfc : findFreeCounter (usedCounters (fs.map Prod.fst)) 0 with
    | error e =>
        rw [hfc] at hok
        exact absurd hok (by simp)
    | ok c =>
        rw [hfc] at hok
        have hname : (if tmp then pad4 c ++ "_T" else pad4 c) ++ "." ++
            normalizeExt ft = name := by
          exact Except.ok.inj hok
        obtain ⟨hfree, _, hle, _⟩ :=
          findFreeCounterGo_ok (usedCounters (fs.map Prod.fst))
            (10001 - 0) 0 c hfc
        intro hmem
        refine hfree (List.mem_filterMap.mpr ⟨name, hmem, ?_⟩)
        rw [← hname]
        exact parseUsedCounter_generated c (hle (by omega)) tmp
          (normalizeExt ft) hext

/-- Witness for `c9_no_dedup_always_writes_new_file` at the
counterexample's state: the new file `0001.png` is appended and differs
from the resident `0000.png`. -/
theorem c9_witness :
    save_image [("0000.png", 7)] 7 "png" false =
      ([("0000.png", 7), ("0001.png", 7)], some "0001.png") ∧
    ¬ "0001.png" ∈ ([("0000.png", 7)] : FS).map Prod.fst := by
  have h := c9_no_dedup_always_writes_new_file [("0000.png", 7)] 7 "png"
    false "0001.png" (by decide) (by decide)
  exact h

/-! ## C10 — wrap-around of filesystem-fallback navigation -/

/-- The chosen index is always in range. -/
theorem navigateHistoryIndex_lt (dir : NavDirection) (cur len : Nat)
    (hlen : 0 < len) (hcur : cur < len) :
    navigateHistoryIndex dir cur len < len := by
  unfold navigateHistoryIndex
  cases dir <;> dsimp only <;> split <;> omega

/-- C10: in filesystem-fallback navigation (`navigate_history`), with at
least two images in the sorted listing, `next` at the last image wraps to
the first and `prev` at the first image wraps to the last; more
generally, from any position in the listing the pick is never `none`, so
fallback browsing never dead-ends while images exist. -/
theorem c10_fallback_navigation_wraps (images : List String) (cn : String)
    (h2 : 2 ≤ images.length) :
    (images.findIdx? (fun p => p = cn) = some (images.length - 1) →
      navigateHistoryPick images (some cn) NavDirection.next =
        images.get? 0) ∧
    (images.findIdx? (fun p => p = cn) = some 0 →
      navigateHistoryPick images (some cn) NavDirection.prev =
        images.get? (images.length - 1)) ∧
    (∀ dir i, images.findIdx? (fun p => p = cn) = some i →
      i < images.length →
      (navigateHistoryPick images (some cn) dir).isSome = true) := by
  have hne : images.isEmpty = false := by
    cases images with
    | nil => simp at h2
    | cons a l => rfl
  have hpick : ∀ dir i, images.findIdx? (fun p => p = cn) = some i →
      navigateHistoryPick images (some cn) dir =
        images.get? (navigateHistoryIndex dir i images.length) := by
    intro dir i hidx
    unfold navigateHistoryPick
    rw [hne, if_neg (by decide : ¬ (false = true))]
    dsimp only
    rw [hidx]
  refine ⟨?_, ?_, ?_⟩
  · intro hidx
    rw [hpick NavDirection.next (images.length - 1) hidx]
    have hstep : navigateHistoryIndex NavDirection.next
        (images.length - 1) images.length = 0 := by
      unfold navigateHistoryIndex
      dsimp only
      rw [Nat.min_eq_left (by omega), if_pos rfl]
    rw [hstep]
  · intro hidx
    rw [hpick NavDirection.prev 0 hidx]
    have hstep : navigateHistoryIndex NavDirection.prev 0 images.length =
        images.length - 1 := by
      unfold navigateHistoryIndex
      dsimp only
      rw [if_pos rfl]
    rw [hstep]
  · intro dir i hidx hlt
    rw [hpick dir i hidx]
    rw [List.get?_eq_get (navigateHistoryIndex_lt dir i images.length
      (by omega) hlt)]
    rfl

/-- Witness for `c10_fallback_navigation_wraps` on the listing
`a.png, b.png, c.png`. -/
theorem c10_witness :
    navigateHistoryPick ["a.png", "b.png", "c.png"] (some "c.png")
      NavDirection.next = some "a.png" ∧
    navigateHistoryPick ["a.png", "b.png", "c.png"] (some "a.png")
      NavDirection.prev = some "c.png" := by
  have h1 := (c10_fallback_navigation_wraps ["a.png", "b.png", "c.png"]
    "c.png" (by decide)).1 (by decide)
  have h2 := (c10_fallback_navigation_wraps ["a.png", "b.png", "c.png"]
    "a.png" (by decide)).2.1 (by decide)
  exact ⟨by rw [h1]; decide, by rw [h2]; decide⟩
